import Mathlib

/-!
Shallow embedding of `src/main.rs` of the sqs-replay tool.

The program relays messages from a source SQS queue to a destination queue:
`replay_messages` runs a batched receive loop; each received message with a
message id and a receipt handle is re-sent to the destination with a fresh
UUID deduplication id and the caller-supplied group id, then deleted from the
source.  Transport failures on receive or send call `std::process::exit(3)`;
delete failures are only logged.  `list_queues` prints queue URLs and exits
with code 2 on transport failure.

The SQS client is modelled as an `Env`: a family of responses indexed by the
ordinal number of the call (the n-th receive call gets `recvResp n`, and so
on), and a stream `uuidGen` supplying the value of the n-th `Uuid::new_v4()`
call.  Runs record an event trace; process exits become an explicit
`RunResult`.  The while-loop is driven by fuel, since the source program's
loop has no termination bound.
-/

/-- Transport errors (`RusotoError` in the source) are only ever printed,
so they are modelled opaquely. -/
abbrev TransportError := Unit

/-- A received SQS message, as used by `replay_messages`: the source reads
`message_id`, `receipt_handle` and `body`, each of which rusoto exposes as an
`Option<String>`. -/
structure Msg where
  message_id : Option String
  receipt_handle : Option String
  body : Option String
deriving DecidableEq

/-- Observable actions of a replay run: network calls made and the log lines
that the claims refer to. -/
inductive Event where
  | receiveCall : Event
  | sendCall (dest mid body dedup group : String) : Event
  | deleteCall (source handle : String) : Event
  | skipNoHandle (mid : String) : Event
  | deleteFailLog (handle : String) : Event
deriving DecidableEq

/-- Mutable state of one `replay_messages` invocation: how many receive, send
and delete calls have been issued so far, the `batch_no` counter of the
source, and the event trace in order. -/
structure RunState where
  recvCount : Nat
  sendCount : Nat
  delCount : Nat
  batch_no : Nat
  trace : List Event
deriving DecidableEq

/-- The state at the top of `replay_messages`: no calls issued, `batch_no = 1`. -/
def initState : RunState :=
  { recvCount := 0, sendCount := 0, delCount := 0, batch_no := 1, trace := [] }

/-- The environment stands for the SQS service plus the random source:
responses to the n-th receive, send and delete calls, and the n-th generated
UUID.  `recvResp` yields the `messages : Option<Vec<Message>>` field of a
successful `ReceiveMessageResult`; `sendResp` yields the optional sequence
number of a successful send. -/
structure Env where
  recvResp : Nat → Except TransportError (Option (List Msg))
  sendResp : Nat → Except TransportError (Option String)
  delResp : Nat → Except TransportError Unit
  uuidGen : Nat → String

/-- Embedding of `send_message` (main.rs:156-187): issue the send call; on
`Ok` print the sequence number and return, on `Err` print and
`std::process::exit(3)`, modelled as `Except.error (state, 3)`. -/
def send_message (env : Env) (st : RunState) (dest mid body dedup group : String) :
    Except (RunState × Nat) RunState :=
  let st' : RunState :=
    { st with sendCount := st.sendCount + 1,
              trace := st.trace ++ [Event.sendCall dest mid body dedup group] }
  match env.sendResp st.sendCount with
  | Except.ok _ => Except.ok st'
  | Except.error _ => Except.error (st', 3)

/-- Embedding of `delete_message` (main.rs:189-200): issue the delete call; a
failure is only logged (`deleteFailLog`), never propagated — the function is
total and cannot exit. -/
def delete_message (env : Env) (st : RunState) (source handle : String) : RunState :=
  let st' : RunState :=
    { st with delCount := st.delCount + 1,
              trace := st.trace ++ [Event.deleteCall source handle] }
  match env.delResp st.delCount with
  | Except.ok _ => st'
  | Except.error _ => { st' with trace := st'.trace ++ [Event.deleteFailLog handle] }

/-- The body of the `for m in messages.iter()` loop (main.rs:114-137): a
message without `message_id` is skipped silently; one without
`receipt_handle` is skipped with a log line; otherwise the body (or
`"<empty>"` if absent) is sent with a fresh UUID and the run's group id, and
on success the original message is deleted from the source. -/
def process_message (env : Env) (source dest group : String) (st : RunState) (m : Msg) :
    Except (RunState × Nat) RunState :=
  match m.message_id with
  | none => Except.ok st
  | some mid =>
    match m.receipt_handle with
    | some handle =>
      let body := m.body.getD "<empty>"
      match send_message env st dest mid body (env.uuidGen st.sendCount) group with
      | Except.ok st' => Except.ok (delete_message env st' source handle)
      | Except.error e => Except.error e
    | none => Except.ok { st with trace := st.trace ++ [Event.skipNoHandle mid] }

/-- The `for` loop over one received batch, in arrival order; a process exit
inside `send_message` short-circuits the rest of the batch. -/
def process_messages (env : Env) (source dest group : String) :
    RunState → List Msg → Except (RunState × Nat) RunState
  | st, [] => Except.ok st
  | st, m :: ms =>
    match process_message env source dest group st m with
    | Except.ok st' => process_messages env source dest group st' ms
    | Except.error e => Except.error e

/-- Result of a replay run: an explicit `std::process::exit` with its code, a
normal return from `replay_messages` (after which `main` exits with code 0),
or fuel exhaustion of the model (the source loop itself is unbounded). -/
inductive RunResult where
  | exited (st : RunState) (code : Nat)
  | finished (st : RunState)
  | fuelOut (st : RunState)
deriving DecidableEq

/-- The run state carried by a result. -/
def RunResult.state : RunResult → RunState
  | RunResult.exited st _ => st
  | RunResult.finished st => st
  | RunResult.fuelOut st => st

/-- The process exit code produced by a run: an explicit exit keeps its code,
and a normal return from `replay_messages` lets `main` finish with code 0. -/
def RunResult.exitCode : RunResult → Option Nat
  | RunResult.exited _ c => some c
  | RunResult.finished _ => some 0
  | RunResult.fuelOut _ => none

/-- The `while more_messages` loop of `replay_messages` (main.rs:90-153).
Each iteration issues one receive call; a transport failure exits with code 3;
a result with no `messages` field ends the loop; otherwise the batch is
processed in full and the loop continues exactly when the batch had the
maximum size 10 (`count == 0 || count < 10` clears `more_messages`). -/
def replay_loop (env : Env) (source dest group : String) : Nat → RunState → RunResult
  | 0, st => RunResult.fuelOut st
  | fuel + 1, st =>
    let st1 : RunState :=
      { st with recvCount := st.recvCount + 1, trace := st.trace ++ [Event.receiveCall] }
    match env.recvResp st.recvCount with
    | Except.error _ => RunResult.exited st1 3
    | Except.ok none => RunResult.finished { st1 with batch_no := st1.batch_no + 1 }
    | Except.ok (some messages) =>
      match process_messages env source dest group st1 messages with
      | Except.error (st', c) => RunResult.exited st' c
      | Except.ok st' =>
        let st'' : RunState := { st' with batch_no := st'.batch_no + 1 }
        if messages.length == 0 || messages.length < 10 then RunResult.finished st''
        else replay_loop env source dest group fuel st''

/-- Embedding of `replay_messages` (main.rs:82-154): run the batch loop from
the initial state. -/
def replay_messages (env : Env) (fuel : Nat) (source dest group : String) : RunResult :=
  replay_loop env source dest group fuel initState

/-- Embedding of `list_queues` (main.rs:63-80), as the pair (printed lines,
process exit code): with a `queue_urls` field present each URL is printed in
order; with the field absent the line `No queues` is printed; a transport
failure prints a failure line and exits with code 2. -/
def list_queues (resp : Except TransportError (Option (List String))) :
    List String × Nat :=
  match resp with
  | Except.ok (some urls) => (urls, 0)
  | Except.ok none => (["No queues"], 0)
  | Except.error _ => (["Failed to list queues"], 2)

/-- A message enters the send/delete path iff it has both a message id and a
receipt handle. -/
def processable (m : Msg) : Bool :=
  m.message_id.isSome && m.receipt_handle.isSome

/-- Number of receive calls recorded in a trace. -/
def countReceives (tr : List Event) : Nat :=
  tr.countP fun e => match e with
    | Event.receiveCall => true
    | _ => false

/-- The group id of a send event, if the event is a send. -/
def Event.group : Event → Option String
  | Event.sendCall _ _ _ _ g => some g
  | _ => none

/-- The deduplication id of a send event, if the event is a send. -/
def Event.dedup : Event → Option String
  | Event.sendCall _ _ _ d _ => some d
  | _ => none

/-- The deduplication ids of all send calls in a trace, in order. -/
def sendDedups (tr : List Event) : List String :=
  tr.filterMap Event.dedup

/-- The group ids of all send calls in a trace, in order. -/
def sendGroups (tr : List Event) : List String :=
  tr.filterMap Event.group

/-- Every send response of the environment is a success. -/
def allSendsOk (env : Env) : Prop :=
  ∀ n, (env.sendResp n).isOk = true

/-- The run state carried by the result of processing, both on a normal
return and on a process exit. -/
def resState : Except (RunState × Nat) RunState → RunState
  | Except.ok st => st
  | Except.error (st, _) => st

/-- All send calls recorded in a trace used the caller-supplied group id. -/
def GroupsAre (group : String) (tr : List Event) : Prop :=
  ∀ x ∈ sendGroups tr, x = group

/-- The dedup ids recorded so far are exactly the first `sendCount` values of
the UUID stream: each send call consumed one fresh UUID. -/
def dedupsFresh (env : Env) (st : RunState) : Prop :=
  sendDedups st.trace = (List.range st.sendCount).map env.uuidGen

/-- A processable test message used by the concrete witness environments. -/
def msgA : Msg := ⟨some "i", some "r", some "b"⟩

/-- A second processable test message, with the same body as `msgA`. -/
def msgB : Msg := ⟨some "i2", some "r2", some "b"⟩

/-- Environment whose source yields batches of sizes 10, 10 and 7, with all
sends and deletes succeeding. -/
def envBatches : Env :=
  { recvResp := fun n =>
      if n = 0 then Except.ok (some (List.replicate 10 msgA))
      else if n = 1 then Except.ok (some (List.replicate 10 msgA))
      else if n = 2 then Except.ok (some (List.replicate 7 msgA))
      else Except.ok none,
    sendResp := fun _ => Except.ok none,
    delResp := fun _ => Except.ok (),
    uuidGen := fun _ => "u" }

/-- Environment whose source answers the first receive with zero messages. -/
def envEmptySrc : Env :=
  { recvResp := fun _ => Except.ok (some []),
    sendResp := fun _ => Except.ok none,
    delResp := fun _ => Except.ok (),
    uuidGen := fun _ => "u" }

/-- Environment where every receive call fails with a transport error. -/
def envRecvFail : Env :=
  { recvResp := fun _ => Except.error (),
    sendResp := fun _ => Except.error (),
    delResp := fun _ => Except.ok (),
    uuidGen := fun _ => "u" }

/-- Environment where receive succeeds with one message but every send call
fails with a transport error. -/
def envSendFail : Env :=
  { recvResp := fun _ => Except.ok (some [msgA]),
    sendResp := fun _ => Except.error (),
    delResp := fun _ => Except.ok (),
    uuidGen := fun _ => "u" }

/-- Environment where every delete call fails with a transport error while
receives and sends succeed. -/
def envDelFail : Env :=
  { recvResp := fun n => if n = 0 then Except.ok (some [msgA]) else Except.ok none,
    sendResp := fun _ => Except.ok none,
    delResp := fun _ => Except.error (),
    uuidGen := fun _ => "u" }

/-- Environment with an injective UUID stream and a batch holding two
messages with identical bodies. -/
def envInj : Env :=
  { recvResp := fun n => if n = 0 then Except.ok (some [msgA, msgB]) else Except.ok none,
    sendResp := fun _ => Except.ok none,
    delResp := fun _ => Except.ok (),
    uuidGen := fun n => String.mk (List.replicate n 'a') }

/-! Trace bookkeeping lemmas. -/

theorem countReceives_append (t1 t2 : List Event) :
    countReceives (t1 ++ t2) = countReceives t1 + countReceives t2 := by
  simp [countReceives, List.countP_append]

theorem sendGroups_append (t1 t2 : List Event) :
    sendGroups (t1 ++ t2) = sendGroups t1 ++ sendGroups t2 := by
  simp [sendGroups]

theorem sendDedups_append (t1 t2 : List Event) :
    sendDedups (t1 ++ t2) = sendDedups t1 ++ sendDedups t2 := by
  simp [sendDedups]

/-- C3: a fetched message that has a message id but no acknowledgment token
(receipt handle) is neither sent nor deleted: processing it only appends the
skip log event, and the batch loop then continues with the remaining
messages. -/
theorem skip_on_missing_token (env : Env) (source dest group : String) (st : RunState)
    (mid : String) (body : Option String) (ms : List Msg) :
    process_message env source dest group st ⟨some mid, none, body⟩ =
      Except.ok { st with trace := st.trace ++ [Event.skipNoHandle mid] } ∧
    process_messages env source dest group st (⟨some mid, none, body⟩ :: ms) =
      process_messages env source dest group
        { st with trace := st.trace ++ [Event.skipNoHandle mid] } ms :=
  ⟨rfl, rfl⟩

/-- C9: a fetched message whose message id is absent is skipped silently —
even when it carries a receipt handle: the state is returned unchanged (no
send, no delete, no log event), and processing continues with the next
message. -/
theorem skip_on_missing_message_id (env : Env) (source dest group : String) (st : RunState)
    (handle body : Option String) (ms : List Msg) :
    process_message env source dest group st ⟨none, handle, body⟩ = Except.ok st ∧
    process_messages env source dest group st (⟨none, handle, body⟩ :: ms) =
      process_messages env source dest group st ms :=
  ⟨rfl, rfl⟩

/-- C7: a transferred message's outbound body is a verbatim copy of the
fetched body: processing a message with body `b` issues a send call whose
body field is exactly `b` (with the fresh UUID and the run's group id). -/
theorem body_copied_verbatim (env : Env) (source dest group : String) (st : RunState)
    (mid handle b : String) :
    ∃ rest, (resState (process_message env source dest group st
        ⟨some mid, some handle, some b⟩)).trace =
      st.trace ++ Event.sendCall dest mid b (env.uuidGen st.sendCount) group :: rest := by
  cases hs : env.sendResp st.sendCount with
  | ok r =>
    cases hd : env.delResp st.delCount with
    | ok u =>
      exact ⟨[Event.deleteCall source handle],
        by simp [process_message, send_message, delete_message, hs, hd, resState]⟩
    | error e =>
      exact ⟨[Event.deleteCall source handle, Event.deleteFailLog handle],
        by simp [process_message, send_message, delete_message, hs, hd, resState]⟩
  | error e =>
    exact ⟨[], by simp [process_message, send_message, hs, resState]⟩

/-- C10: a fetched message whose body is absent is still transferred, with
the literal string `<empty>` as the outbound message body. -/
theorem absent_body_placeholder (env : Env) (source dest group : String) (st : RunState)
    (mid handle : String) :
    ∃ rest, (resState (process_message env source dest group st
        ⟨some mid, some handle, none⟩)).trace =
      st.trace ++ Event.sendCall dest mid "<empty>" (env.uuidGen st.sendCount) group :: rest := by
  cases hs : env.sendResp st.sendCount with
  | ok r =>
    cases hd : env.delResp st.delCount with
    | ok u =>
      exact ⟨[Event.deleteCall source handle],
        by simp [process_message, send_message, delete_message, hs, hd, resState]⟩
    | error e =>
      exact ⟨[Event.deleteCall source handle, Event.deleteFailLog handle],
        by simp [process_message, send_message, delete_message, hs, hd, resState]⟩
  | error e =>
    exact ⟨[], by simp [process_message, send_message, hs, resState]⟩

/-- C8 counterexample: when the service returns a present but empty
`queue_urls` list, `list_queues` prints nothing at all — in particular no
`No queues` indicator line. -/
theorem list_queues_empty_some_counterexample :
    list_queues (Except.ok (some [])) = ([], 0) ∧
    "No queues" ∉ (list_queues (Except.ok (some []))).1 :=
  ⟨rfl, by simp [list_queues]⟩

/-- C8 amended: `list_queues` prints every returned queue URL in order and
exits 0; it prints the `No queues` indicator only when the `queue_urls`
field is absent from the response (when the field is present but empty,
nothing is printed); on transport error it prints a failure line and exits
with code 2. -/
theorem list_queues_spec :
    (∀ urls : List String, list_queues (Except.ok (some urls)) = (urls, 0)) ∧
    list_queues (Except.ok none) = (["No queues"], 0) ∧
    (∀ e : TransportError, list_queues (Except.error e) = (["Failed to list queues"], 2)) :=
  ⟨fun _ => rfl, rfl, fun _ => rfl⟩

/-- When the pending send response is a success, processing one message
cannot exit: it returns normally, leaves the receive counter and batch
number unchanged, bumps the send and delete counters exactly when the
message is processable, and adds no receive event to the trace. -/
theorem process_message_ok (env : Env) (source dest group : String) (st : RunState) (m : Msg)
    (hs : (env.sendResp st.sendCount).isOk = true) :
    ∃ st', process_message env source dest group st m = Except.ok st' ∧
      st'.recvCount = st.recvCount ∧
      st'.batch_no = st.batch_no ∧
      st'.sendCount = st.sendCount + (if processable m then 1 else 0) ∧
      st'.delCount = st.delCount + (if processable m then 1 else 0) ∧
      countReceives st'.trace = countReceives st.trace := by
  obtain ⟨mi, rh, b⟩ := m
  cases mi with
  | none =>
    exact ⟨st, rfl, rfl, rfl, by simp [processable], by simp [processable], rfl⟩
  | some mid =>
    cases rh with
    | none =>
      refine ⟨_, rfl, rfl, rfl, by simp [processable], by simp [processable], ?_⟩
      simp [countReceives_append, countReceives]
    | some handle =>
      cases hsr : env.sendResp st.sendCount with
      | error e => rw [hsr] at hs; simp [Except.isOk, Except.toBool] at hs
      | ok r =>
        cases hd : env.delResp st.delCount with
        | ok u =>
          simp only [process_message, send_message, delete_message, hsr, hd]
          refine ⟨_, rfl, ?_, ?_, ?_, ?_, ?_⟩
          · rfl
          · rfl
          · simp [processable]
          · simp [processable]
          · simp [countReceives_append, countReceives]
        | error e =>
          simp only [process_message, send_message, delete_message, hsr, hd]
          refine ⟨_, rfl, ?_, ?_, ?_, ?_, ?_⟩
          · rfl
          · rfl
          · simp [processable]
          · simp [processable]
          · simp [countReceives_append, countReceives]

/-- When every send response succeeds, processing a whole batch returns
normally, preserves the receive counter and batch number, adds one send and
one delete call per processable message, and adds no receive event. -/
theorem process_messages_ok (env : Env) (source dest group : String)
    (hs : allSendsOk env) (ms : List Msg) :
    ∀ st : RunState,
      ∃ st', process_messages env source dest group st ms = Except.ok st' ∧
        st'.recvCount = st.recvCount ∧
        st'.batch_no = st.batch_no ∧
        st'.sendCount = st.sendCount + ms.countP processable ∧
        st'.delCount = st.delCount + ms.countP processable ∧
        countReceives st'.trace = countReceives st.trace := by
  induction ms with
  | nil =>
    intro st
    exact ⟨st, rfl, rfl, rfl, by simp, by simp, rfl⟩
  | cons m ms ih =>
    intro st
    obtain ⟨s1, h1, e1, e2, e3, e4, e5⟩ :=
      process_message_ok env source dest group st m (hs _)
    obtain ⟨s2, h2, f1, f2, f3, f4, f5⟩ := ih s1
    refine ⟨s2, ?_, ?_, ?_, ?_, ?_, ?_⟩
    · simp [process_messages, h1, h2]
    · rw [f1, e1]
    · rw [f2, e2]
    · rw [f3, e3, List.countP_cons]; omega
    · rw [f4, e4, List.countP_cons]; omega
    · rw [f5, e5]

/-- One loop iteration on a full batch (size 10) that processes without a
process exit continues into the next iteration. -/
theorem replay_loop_step_full (env : Env) (source dest group : String) (fuel : Nat)
    (st : RunState) (msgs : List Msg) (st' : RunState)
    (hr : env.recvResp st.recvCount = Except.ok (some msgs))
    (hp : process_messages env source dest group
        { st with recvCount := st.recvCount + 1, trace := st.trace ++ [Event.receiveCall] }
        msgs = Except.ok st')
    (hfull : msgs.length = 10) :
    replay_loop env source dest group (fuel + 1) st =
      replay_loop env source dest group fuel { st' with batch_no := st'.batch_no + 1 } := by
  simp [replay_loop, hr, hp, hfull]

/-- One loop iteration on an under-sized batch (fewer than 10 messages) that
processes without a process exit ends the loop after the batch. -/
theorem replay_loop_step_last (env : Env) (source dest group : String) (fuel : Nat)
    (st : RunState) (msgs : List Msg) (st' : RunState)
    (hr : env.recvResp st.recvCount = Except.ok (some msgs))
    (hp : process_messages env source dest group
        { st with recvCount := st.recvCount + 1, trace := st.trace ++ [Event.receiveCall] }
        msgs = Except.ok st')
    (hlt : msgs.length < 10) :
    replay_loop env source dest group (fuel + 1) st =
      RunResult.finished { st' with batch_no := st'.batch_no + 1 } := by
  simp [replay_loop, hr, hp, hlt]

/-- C2: transport failures on receive or send are fatal.  A failing receive
call exits the process immediately with code 3.  A failing send for message
M exits with code 3 before anything else happens: the resulting trace ends
exactly at M's send call, so M is not deleted and no later message of the
batch is touched; and a processing exit propagates out of the loop at once,
so no further batch is fetched. -/
theorem fatal_transport_exit :
    (∀ (env : Env) (source dest group : String) (fuel : Nat) (st : RunState),
        env.recvResp st.recvCount = Except.error () →
        replay_loop env source dest group (fuel + 1) st =
          RunResult.exited
            { st with recvCount := st.recvCount + 1,
                      trace := st.trace ++ [Event.receiveCall] } 3) ∧
    (∀ (env : Env) (source dest group : String) (st : RunState)
        (mid handle : String) (body : Option String) (ms : List Msg),
        env.sendResp st.sendCount = Except.error () →
        process_messages env source dest group st (⟨some mid, some handle, body⟩ :: ms) =
          Except.error
            ({ st with sendCount := st.sendCount + 1,
                       trace := st.trace ++ [Event.sendCall dest mid (body.getD "<empty>")
                         (env.uuidGen st.sendCount) group] }, 3)) ∧
    (∀ (env : Env) (source dest group : String) (fuel : Nat) (st : RunState)
        (msgs : List Msg) (st' : RunState) (c : Nat),
        env.recvResp st.recvCount = Except.ok (some msgs) →
        process_messages env source dest group
          { st with recvCount := st.recvCount + 1,
                    trace := st.trace ++ [Event.receiveCall] } msgs =
          Except.error (st', c) →
        replay_loop env source dest group (fuel + 1) st = RunResult.exited st' c) := by
  refine ⟨?_, ?_, ?_⟩
  · intro env source dest group fuel st h
    simp [replay_loop, h]
  · intro env source dest group st mid handle body ms h
    simp [process_messages, process_message, send_message, h]
  · intro env source dest group fuel st msgs st' c h1 h2
    simp [replay_loop, h1, h2]

/-- Concrete instances of the three parts of `fatal_transport_exit`: a
receive failure exits with code 3; a send failure leaves the message
undeleted and the rest of the batch unprocessed; such an exit ends the run
with no further receive call. -/
theorem fatal_transport_exit_witness :
    replay_loop envRecvFail "s" "d" "g" 1 initState =
      RunResult.exited
        { recvCount := 1, sendCount := 0, delCount := 0, batch_no := 1,
          trace := [Event.receiveCall] } 3 ∧
    process_messages envSendFail "s" "d" "g" initState [msgA] =
      Except.error
        ({ recvCount := 0, sendCount := 1, delCount := 0, batch_no := 1,
           trace := [Event.sendCall "d" "i" "b" "u" "g"] }, 3) ∧
    replay_loop envSendFail "s" "d" "g" 1 initState =
      RunResult.exited
        { recvCount := 1, sendCount := 1, delCount := 0, batch_no := 1,
          trace := [Event.receiveCall, Event.sendCall "d" "i" "b" "u" "g"] } 3 := by
  refine ⟨?_, ?_, ?_⟩
  · exact fatal_transport_exit.1 envRecvFail "s" "d" "g" 0 initState rfl
  · exact fatal_transport_exit.2.1 envSendFail "s" "d" "g" initState "i" "r" (some "b") [] rfl
  · exact fatal_transport_exit.2.2 envSendFail "s" "d" "g" 0 initState [msgA] _ 3 rfl rfl

/-- C4: a failing delete (acknowledge) call is only logged.  `delete_message`
on a failing response just records the call plus the failure log; processing
a message returns normally whenever its send succeeded, whatever the delete
response was; and a whole run over one under-sized batch ends with exit code
0 for every delete behaviour of the environment. -/
theorem delete_failure_nonfatal :
    (∀ (env : Env) (st : RunState) (source handle : String),
        env.delResp st.delCount = Except.error () →
        delete_message env st source handle =
          { st with delCount := st.delCount + 1,
                    trace := st.trace ++
                      [Event.deleteCall source handle, Event.deleteFailLog handle] }) ∧
    (∀ (env : Env) (source dest group : String) (st : RunState) (m : Msg),
        (env.sendResp st.sendCount).isOk = true →
        ∃ st', process_message env source dest group st m = Except.ok st') ∧
    (∀ (env : Env) (source dest group : String) (k : Nat) (msgs : List Msg),
        env.recvResp 0 = Except.ok (some msgs) → msgs.length < 10 →
        allSendsOk env →
        (replay_messages env (k + 1) source dest group).exitCode = some 0) := by
  refine ⟨?_, ?_, ?_⟩
  · intro env st source handle h
    simp [delete_message, h]
  · intro env source dest group st m hs
    obtain ⟨st', h, -, -, -, -, -⟩ := process_message_ok env source dest group st m hs
    exact ⟨st', h⟩
  · intro env source dest group k msgs h1 h2 hs
    obtain ⟨st', hp, -, -, -, -, -⟩ := process_messages_ok env source dest group hs msgs
      { initState with recvCount := initState.recvCount + 1,
                       trace := initState.trace ++ [Event.receiveCall] }
    have hfin := replay_loop_step_last env source dest group k initState msgs st' h1 hp h2
    show (replay_loop env source dest group (k + 1) initState).exitCode = some 0
    rw [hfin]
    rfl

/-- Concrete instance of `delete_failure_nonfatal` in an environment where
every delete call fails: the failure is logged, the message is still
processed, and the run exits with code 0. -/
theorem delete_failure_nonfatal_witness :
    delete_message envDelFail initState "s" "r" =
      { recvCount := 0, sendCount := 0, delCount := 1, batch_no := 1,
        trace := [Event.deleteCall "s" "r", Event.deleteFailLog "r"] } ∧
    (∃ st', process_message envDelFail "s" "d" "g" initState msgA = Except.ok st') ∧
    (replay_messages envDelFail 1 "s" "d" "g").exitCode = some 0 := by
  refine ⟨?_, ?_, ?_⟩
  · exact delete_failure_nonfatal.1 envDelFail initState "s" "r" rfl
  · exact delete_failure_nonfatal.2.1 envDelFail "s" "d" "g" initState msgA rfl
  · exact delete_failure_nonfatal.2.2 envDelFail "s" "d" "g" 0 [msgA] rfl (by norm_num)
      (fun _ => rfl)

/-- C1: the batch fetch loop issues receive calls until one returns fewer
than 10 messages, fully processing the final under-sized batch.  With a
source answering the first three receive calls with batches of sizes 10, 10
and 7 (and all sends succeeding), the run finishes after exactly 3 receive
calls, having issued one send per processable message of all three batches —
the final batch of 7 included.  With a source answering the first receive
with 0 messages, the run finishes after exactly 1 receive call with nothing
transferred. -/
theorem replay_batch_termination :
    (∀ (env : Env) (source dest group : String) (k : Nat) (ms0 ms1 ms2 : List Msg),
        env.recvResp 0 = Except.ok (some ms0) → ms0.length = 10 →
        env.recvResp 1 = Except.ok (some ms1) → ms1.length = 10 →
        env.recvResp 2 = Except.ok (some ms2) → ms2.length = 7 →
        allSendsOk env →
        ∃ st, replay_messages env (k + 3) source dest group = RunResult.finished st ∧
          st.recvCount = 3 ∧ countReceives st.trace = 3 ∧
          st.sendCount = (ms0 ++ ms1 ++ ms2).countP processable) ∧
    (∀ (env : Env) (source dest group : String) (k : Nat),
        env.recvResp 0 = Except.ok (some []) →
        ∃ st, replay_messages env (k + 1) source dest group = RunResult.finished st ∧
          st.recvCount = 1 ∧ st.trace = [Event.receiveCall] ∧
          st.sendCount = 0 ∧ st.delCount = 0) := by
  constructor
  · intro env source dest group k ms0 ms1 ms2 h0 hl0 h1 hl1 h2 hl2 hs
    obtain ⟨s1, hp1, r1, b1, sc1, dc1, cr1⟩ := process_messages_ok env source dest group hs ms0
      { initState with recvCount := initState.recvCount + 1,
                       trace := initState.trace ++ [Event.receiveCall] }
    have step1 := replay_loop_step_full env source dest group (k + 2) initState ms0 s1 h0 hp1 hl0
    set s1b : RunState := { s1 with batch_no := s1.batch_no + 1 }
    have hrec1 : s1.recvCount = 1 := r1.trans rfl
    have hr1 : env.recvResp s1.recvCount = Except.ok (some ms1) := by rw [hrec1]; exact h1
    obtain ⟨s2, hp2, r2, b2, sc2, dc2, cr2⟩ := process_messages_ok env source dest group hs ms1
      { s1b with recvCount := s1b.recvCount + 1, trace := s1b.trace ++ [Event.receiveCall] }
    have step2 := replay_loop_step_full env source dest group (k + 1) s1b ms1 s2 hr1 hp2 hl1
    set s2b : RunState := { s2 with batch_no := s2.batch_no + 1 }
    have hrec2 : s2.recvCount = 2 := by
      rw [r2]
      change s1.recvCount + 1 = 2
      omega
    have hr2 : env.recvResp s2.recvCount = Except.ok (some ms2) := by rw [hrec2]; exact h2
    obtain ⟨s3, hp3, r3, b3, sc3, dc3, cr3⟩ := process_messages_ok env source dest group hs ms2
      { s2b with recvCount := s2b.recvCount + 1, trace := s2b.trace ++ [Event.receiveCall] }
    have step3 := replay_loop_step_last env source dest group k s2b ms2 s3 hr2 hp3 (by omega)
    refine ⟨{ s3 with batch_no := s3.batch_no + 1 }, ?_, ?_, ?_, ?_⟩
    · show replay_loop env source dest group (k + 2 + 1) initState = _
      rw [step1]
      show replay_loop env source dest group (k + 1 + 1) s1b = _
      rw [step2]
      exact step3
    · show s3.recvCount = 3
      rw [r3]
      change s2.recvCount + 1 = 3
      omega
    · show countReceives s3.trace = 3
      have c1 : countReceives s1.trace = 1 := cr1.trans rfl
      have c2 : countReceives s2.trace = 2 := by
        rw [cr2]
        change countReceives (s1.trace ++ [Event.receiveCall]) = 2
        rw [countReceives_append, c1]
        decide
      rw [cr3]
      change countReceives (s2.trace ++ [Event.receiveCall]) = 3
      rw [countReceives_append, c2]
      decide
    · show s3.sendCount = _
      have t1 : s1.sendCount = ms0.countP processable := by
        rw [sc1]
        change 0 + ms0.countP processable = ms0.countP processable
        omega
      have t2 : s2.sendCount = ms0.countP processable + ms1.countP processable := by
        rw [sc2]
        change s1.sendCount + ms1.countP processable = _
        omega
      rw [sc3]
      change s2.sendCount + ms2.countP processable = (ms0 ++ ms1 ++ ms2).countP processable
      rw [List.countP_append, List.countP_append]
      omega
  · intro env source dest group k h0
    refine ⟨{ recvCount := 1, sendCount := 0, delCount := 0, batch_no := 2,
              trace := [Event.receiveCall] }, ?_, rfl, rfl, rfl, rfl⟩
    exact replay_loop_step_last env source dest group k initState [] _ h0 rfl (by norm_num)

/-- Concrete instance of `replay_batch_termination`: a source with batches of
sizes 10, 10 and 7 of processable messages gives a finished run with 3
receive calls and 27 sends, and an empty first batch gives a finished run
with 1 receive call and no transfer. -/
theorem replay_batch_termination_witness :
    (∃ st, replay_messages envBatches 3 "s" "d" "g" = RunResult.finished st ∧
      st.recvCount = 3 ∧ countReceives st.trace = 3 ∧
      st.sendCount = (List.replicate 10 msgA ++ List.replicate 10 msgA ++
        List.replicate 7 msgA).countP processable) ∧
    (∃ st, replay_messages envEmptySrc 1 "s" "d" "g" = RunResult.finished st ∧
      st.recvCount = 1 ∧ st.trace = [Event.receiveCall] ∧
      st.sendCount = 0 ∧ st.delCount = 0) := by
  constructor
  · exact replay_batch_termination.1 envBatches "s" "d" "g" 0
      (List.replicate 10 msgA) (List.replicate 10 msgA) (List.replicate 7 msgA)
      rfl (by simp) rfl (by simp) rfl (by simp) (fun _ => rfl)
  · exact replay_batch_termination.2 envEmptySrc "s" "d" "g" 0 rfl

/-! Invariant: every send call of a run carries the caller-supplied group id. -/

theorem groupsAre_append (group : String) (t1 t2 : List Event)
    (h1 : GroupsAre group t1) (h2 : GroupsAre group t2) : GroupsAre group (t1 ++ t2) := by
  intro x hx
  rw [GroupsAre] at h1 h2
  rcases List.mem_append.mp (by simpa [sendGroups_append] using hx) with h | h
  exacts [h1 x h, h2 x h]

theorem groupsAre_nonsend (group : String) (e : Event) (he : Event.group e = none) :
    GroupsAre group [e] := by
  intro x hx
  simp [sendGroups, List.filterMap, he] at hx

theorem groupsAre_send (group dest mid body dedup : String) :
    GroupsAre group [Event.sendCall dest mid body dedup group] := by
  intro x hx
  simpa [sendGroups, List.filterMap, Event.group] using hx

theorem process_message_groups (env : Env) (source dest group : String) (st : RunState)
    (m : Msg) (h : GroupsAre group st.trace) :
    GroupsAre group (resState (process_message env source dest group st m)).trace := by
  obtain ⟨mi, rh, b⟩ := m
  cases mi with
  | none => simpa [process_message, resState] using h
  | some mid =>
    cases rh with
    | none =>
      simp only [process_message, resState]
      exact groupsAre_append group _ _ h (groupsAre_nonsend group _ rfl)
    | some handle =>
      cases hsr : env.sendResp st.sendCount with
      | ok r =>
        cases hd : env.delResp st.delCount with
        | ok u =>
          simp only [process_message, send_message, delete_message, hsr, hd, resState]
          exact groupsAre_append group _ _
            (groupsAre_append group _ _ h (groupsAre_send group dest mid _ _))
            (groupsAre_nonsend group _ rfl)
        | error e =>
          simp only [process_message, send_message, delete_message, hsr, hd, resState]
          exact groupsAre_append group _ _
            (groupsAre_append group _ _
              (groupsAre_append group _ _ h (groupsAre_send group dest mid _ _))
              (groupsAre_nonsend group _ rfl))
            (groupsAre_nonsend group _ rfl)
      | error e =>
        simp only [process_message, send_message, hsr, resState]
        exact groupsAre_append group _ _ h (groupsAre_send group dest mid _ _)

theorem process_messages_groups (env : Env) (source dest group : String) (ms : List Msg) :
    ∀ st : RunState, GroupsAre group st.trace →
      GroupsAre group (resState (process_messages env source dest group st ms)).trace := by
  induction ms with
  | nil => intro st h; simpa [process_messages, resState] using h
  | cons m ms ih =>
    intro st h
    have hm := process_message_groups env source dest group st m h
    cases hpm : process_message env source dest group st m with
    | ok st' =>
      rw [hpm] at hm
      simp only [process_messages, hpm]
      exact ih st' hm
    | error e =>
      rw [hpm] at hm
      simp only [process_messages, hpm]
      exact hm

theorem replay_loop_groups (env : Env) (source dest group : String) (fuel : Nat) :
    ∀ st : RunState, GroupsAre group st.trace →
      GroupsAre group (replay_loop env source dest group fuel st).state.trace := by
  induction fuel with
  | zero => intro st h; simpa [replay_loop, RunResult.state] using h
  | succ fuel ih =>
    intro st h
    have hst1 : GroupsAre group
        ({ st with recvCount := st.recvCount + 1,
                   trace := st.trace ++ [Event.receiveCall] } : RunState).trace :=
      groupsAre_append group _ _ h (groupsAre_nonsend group _ rfl)
    cases hr : env.recvResp st.recvCount with
    | error e =>
      simp only [replay_loop, hr, RunResult.state]
      exact hst1
    | ok o =>
      cases o with
      | none =>
        simp only [replay_loop, hr, RunResult.state]
        exact hst1
      | some msgs =>
        have hpm := process_messages_groups env source dest group msgs _ hst1
        cases hp : process_messages env source dest group
            { st with recvCount := st.recvCount + 1,
                      trace := st.trace ++ [Event.receiveCall] } msgs with
        | ok st' =>
          rw [hp] at hpm
          simp only [replay_loop, hr, hp]
          split
          · simpa [RunResult.state, resState] using hpm
          · exact ih _ hpm
        | error e =>
          obtain ⟨st', c⟩ := e
          rw [hp] at hpm
          simp only [replay_loop, hr, hp, RunResult.state]
          exact hpm

/-- C5: every message transferred in one replay run is sent with exactly the
caller-supplied group id: every send event of the run's trace carries that
group id, whatever batch or position the message came from. -/
theorem group_id_consistency (env : Env) (fuel : Nat) (source dest group : String) :
    ∀ x ∈ sendGroups (replay_messages env fuel source dest group).state.trace, x = group := by
  have h0 : GroupsAre group initState.trace := by
    intro x hx
    simp [initState, sendGroups] at hx
  exact replay_loop_groups env source dest group fuel initState h0

/-- Concrete instance of `group_id_consistency`: a run that performed a send
has the caller's group id in its trace, and that recorded id equals the
caller's. -/
theorem group_id_consistency_witness :
    "g" ∈ sendGroups (replay_messages envDelFail 1 "s" "d" "g").state.trace ∧
    "g" = "g" := by
  have hmem : "g" ∈ sendGroups (replay_messages envDelFail 1 "s" "d" "g").state.trace := by
    decide
  exact ⟨hmem, group_id_consistency envDelFail 1 "s" "d" "g" "g" hmem⟩

/-! Invariant: each send call consumed one fresh value of the UUID stream. -/

theorem process_message_dedups (env : Env) (source dest group : String) (st : RunState)
    (m : Msg) (h : dedupsFresh env st) :
    dedupsFresh env (resState (process_message env source dest group st m)) := by
  obtain ⟨mi, rh, b⟩ := m
  cases mi with
  | none => simpa [process_message, resState] using h
  | some mid =>
    cases rh with
    | none =>
      simp only [process_message, resState]
      simp only [dedupsFresh] at h ⊢
      simpa [sendDedups_append, sendDedups, List.filterMap, Event.dedup] using h
    | some handle =>
      cases hsr : env.sendResp st.sendCount with
      | ok r =>
        cases hd : env.delResp st.delCount with
        | ok u =>
          simp only [process_message, send_message, delete_message, hsr, hd, resState]
          simp only [dedupsFresh] at h ⊢
          simp only [sendDedups] at h
          simp [sendDedups_append, sendDedups, List.filterMap, Event.dedup, h,
            List.range_succ]
        | error e =>
          simp only [process_message, send_message, delete_message, hsr, hd, resState]
          simp only [dedupsFresh] at h ⊢
          simp only [sendDedups] at h
          simp [sendDedups_append, sendDedups, List.filterMap, Event.dedup, h,
            List.range_succ]
      | error e =>
        simp only [process_message, send_message, hsr, resState]
        simp only [dedupsFresh] at h ⊢
        simp only [sendDedups] at h
        simp [sendDedups_append, sendDedups, List.filterMap, Event.dedup, h,
          List.range_succ]

theorem process_messages_dedups (env : Env) (source dest group : String) (ms : List Msg) :
    ∀ st : RunState, dedupsFresh env st →
      dedupsFresh env (resState (process_messages env source dest group st ms)) := by
  induction ms with
  | nil => intro st h; simpa [process_messages, resState] using h
  | cons m ms ih =>
    intro st h
    have hm := process_message_dedups env source dest group st m h
    cases hpm : process_message env source dest group st m with
    | ok st' =>
      rw [hpm] at hm
      simp only [process_messages, hpm]
      exact ih st' hm
    | error e =>
      rw [hpm] at hm
      simp only [process_messages, hpm]
      exact hm

theorem replay_loop_dedups (env : Env) (source dest group : String) (fuel : Nat) :
    ∀ st : RunState, dedupsFresh env st →
      dedupsFresh env (replay_loop env source dest group fuel st).state := by
  induction fuel with
  | zero => intro st h; simpa [replay_loop, RunResult.state] using h
  | succ fuel ih =>
    intro st h
    have hst1 : dedupsFresh env
        ({ st with recvCount := st.recvCount + 1,
                   trace := st.trace ++ [Event.receiveCall] } : RunState) := by
      simp only [dedupsFresh] at h ⊢
      simpa [sendDedups_append, sendDedups, List.filterMap, Event.dedup] using h
    cases hr : env.recvResp st.recvCount with
    | error e =>
      simp only [replay_loop, hr, RunResult.state]
      exact hst1
    | ok o =>
      cases o with
      | none =>
        simp only [replay_loop, hr, RunResult.state]
        exact hst1
      | some msgs =>
        have hpm := process_messages_dedups env source dest group msgs _ hst1
        cases hp : process_messages env source dest group
            { st with recvCount := st.recvCount + 1,
                      trace := st.trace ++ [Event.receiveCall] } msgs with
        | ok st' =>
          rw [hp] at hpm
          simp only [replay_loop, hr, hp]
          split
          · simpa [RunResult.state, resState] using hpm
          · exact ih _ hpm
        | error e =>
          obtain ⟨st', c⟩ := e
          rw [hp] at hpm
          simp only [replay_loop, hr, hp, RunResult.state]
          exact hpm

/-- C6: every transfer call of a run consumes one fresh value of the UUID
stream — the recorded dedup ids are exactly the first `sendCount` stream
values in order, independent of message bodies and group ids — so whenever
the stream is injective (the idealisation of a version-4 random UUID
generator, collisions excluded) the dedup ids of all transfer calls in the
run are pairwise distinct, even for sends with identical body and group. -/
theorem dedup_identity_fresh (env : Env) (fuel : Nat) (source dest group : String)
    (hinj : Function.Injective env.uuidGen) :
    sendDedups (replay_messages env fuel source dest group).state.trace =
      (List.range (replay_messages env fuel source dest group).state.sendCount).map
        env.uuidGen ∧
    (sendDedups (replay_messages env fuel source dest group).state.trace).Nodup := by
  have h : dedupsFresh env (replay_messages env fuel source dest group).state :=
    replay_loop_dedups env source dest group fuel initState
      (by simp [dedupsFresh, initState, sendDedups])
  refine ⟨h, ?_⟩
  simp only [dedupsFresh] at h
  rw [h]
  exact (List.nodup_range _).map hinj

/-- Concrete instance of `dedup_identity_fresh`: with an injective UUID
stream, a run that sends two messages with identical bodies records distinct
dedup ids. -/
theorem dedup_identity_fresh_witness :
    sendDedups (replay_messages envInj 1 "s" "d" "g").state.trace =
      (List.range (replay_messages envInj 1 "s" "d" "g").state.sendCount).map
        envInj.uuidGen ∧
    (sendDedups (replay_messages envInj 1 "s" "d" "g").state.trace).Nodup :=
  dedup_identity_fresh envInj 1 "s" "d" "g" (by
    intro a b hab
    have h2 : List.replicate a 'a' = List.replicate b 'a' := congrArg String.data hab
    simpa using congrArg List.length h2)
